import Mathlib

/-!
Shallow embedding of `sretoolbox/utils/cache.py` (the whole repository):
per-instance memoization decorators over a process-wide registry `_CACHES`.

Modelling choices:
* A class instance is identified by a `Nat` (its identity).
* The registry `_CACHES` (a `WeakKeyDictionary`) is a function
  `Caches K V := Nat → Option (Cache K V)`; `none` means the instance has
  no entry.  A per-instance cache (a Python `dict`) is `K → Option V`.
* A wrapped method `func(self, *args, **kwargs)` is `f : Nat → A → Except E V`
  (the argument pack is a single value of type `A`; a raised exception is
  `Except.error`).
* Each decorator's inner wrapper becomes a state-passing function returning
  the call's result, the registry after the call, and the number of times
  the wrapped `func` was invoked during the call (0 or 1).  Computed-key
  wrappers additionally return the number of `key_func` evaluations.
* `raw_get`'s `cache[key]` on an absent key raises `KeyError`; that error is
  the `KeyNotFound` of the specification.
-/

namespace Sretoolbox

/-- The error raised by the direct get accessor on an absent key
(Python `KeyError` from `cache[key]`). -/
inductive KeyNotFound : Type where
  | keyNotFound : KeyNotFound

/-- A per-instance cache: Python `dict` mapping cache key to cached value. -/
abbrev Cache (K V : Type) : Type := K → Option V

/-- The registry `_CACHES`: instance identity to that instance's cache. -/
abbrev Caches (K V : Type) : Type := Nat → Option (Cache K V)

/-- The empty per-instance cache (`{}`). -/
def emptyCache {K V : Type} : Cache K V := fun _ => none

/-- The registry at process start: no instance has an entry. -/
def emptyCaches {K V : Type} : Caches K V := fun _ => none

/-- `cache[key] = value` on a Python dict: unconditional upsert. -/
def dictSet {K V : Type} [DecidableEq K] (c : Cache K V) (k : K) (v : V) : Cache K V :=
  fun q => if q = k then some v else c q

/-- `del cache[key]` (successful case): the key is absent afterwards. -/
def dictDel {K V : Type} [DecidableEq K] (c : Cache K V) (k : K) : Cache K V :=
  fun q => if q = k then none else c q

/-- `_CACHES[owner_ref] = cache`. -/
def cachesSet {K V : Type} (s : Caches K V) (inst : Nat) (c : Cache K V) : Caches K V :=
  fun i => if i = inst then some c else s i

/-- `_lazy_init(owner_ref)`: return the instance's cache, creating an empty
one in the registry when the instance has none.  Returns the cache and the
(possibly updated) registry. -/
def lazy_init {K V : Type} (s : Caches K V) (inst : Nat) : Cache K V × Caches K V :=
  match s inst with
  | some c => (c, s)
  | none => (emptyCache, cachesSet s inst emptyCache)

/-- Observation: the value cached for `(inst, key)`, `none` when the
instance has no registry entry or its cache lacks the key. -/
def cacheLookup {K V : Type} (s : Caches K V) (inst : Nat) (key : K) : Option V :=
  match s inst with
  | some c => c key
  | none => none

/-- A wrapped computation that never raises. -/
def liftTotal {V A : Type} (E : Type) (g : Nat → A → V) : Nat → A → Except E V :=
  fun i a => Except.ok (g i a)

/-- `static(key)`'s inner wrapper `with_cache_get`: look the static key up in
the instance's cache; on a miss invoke `func` with the original arguments and
store the result.  Third component counts invocations of `func`. -/
def with_cache_get {K V A E : Type} [DecidableEq K] (key : K) (f : Nat → A → Except E V)
    (inst : Nat) (a : A) (s : Caches K V) : Except E V × Caches K V × Nat :=
  let p := lazy_init s inst
  match p.1 key with
  | some v => (Except.ok v, p.2, 0)
  | none =>
    match f inst a with
    | Except.error e => (Except.error e, p.2, 1)
    | Except.ok v => (Except.ok v, cachesSet p.2 inst (dictSet p.1 key v), 1)

/-- `computed(key_func)`'s inner wrapper `with_cache_computed`: derive the key
from the call's arguments (the instance excluded), then look up / compute /
store exactly as the static wrapper does.  Components 3 and 4 count
invocations of `func` and of `key_func`. -/
def with_cache_computed {K V A E : Type} [DecidableEq K] (key_func : A → Except E K)
    (f : Nat → A → Except E V) (inst : Nat) (a : A) (s : Caches K V) :
    Except E V × Caches K V × Nat × Nat :=
  match key_func a with
  | Except.error e => (Except.error e, s, 0, 1)
  | Except.ok key =>
    let p := lazy_init s inst
    match p.1 key with
    | some v => (Except.ok v, p.2, 0, 1)
    | none =>
      match f inst a with
      | Except.error e => (Except.error e, p.2, 1, 1)
      | Except.ok v => (Except.ok v, cachesSet p.2 inst (dictSet p.1 key v), 1, 1)

/-- `raw_set(owner_ref, key, value)`: lazily initialize, then upsert. -/
def raw_set {K V : Type} [DecidableEq K] (s : Caches K V) (inst : Nat) (key : K) (value : V) :
    Caches K V :=
  let p := lazy_init s inst
  cachesSet p.2 inst (dictSet p.1 key value)

/-- `raw_get(owner_ref, key)`: lazily initialize, then `cache[key]`, raising
`KeyNotFound` (Python `KeyError`) on an absent key.  The lazily-initialized
registry is returned alongside, raise or not. -/
def raw_get {K V : Type} (s : Caches K V) (inst : Nat) (key : K) :
    Except KeyNotFound V × Caches K V :=
  let p := lazy_init s inst
  match p.1 key with
  | some v => (Except.ok v, p.2)
  | none => (Except.error KeyNotFound.keyNotFound, p.2)

/-- `raw_remove(owner_ref, key)`: lazily initialize, then delete the key,
swallowing the `KeyError` of an absent key. -/
def raw_remove {K V : Type} [DecidableEq K] (s : Caches K V) (inst : Nat) (key : K) :
    Caches K V :=
  let p := lazy_init s inst
  cachesSet p.2 inst (dictDel p.1 key)

/-- `remove_static(key)`'s inner wrapper: remove the static key, then invoke
`func` and return its result unmodified. -/
def with_cache_remove_static {K V A E : Type} [DecidableEq K] (key : K)
    (f : Nat → A → Except E V) (inst : Nat) (a : A) (s : Caches K V) :
    Except E V × Caches K V × Nat :=
  let s1 := raw_remove s inst key
  (f inst a, s1, 1)

/-- `remove_computed(key_func)`'s inner wrapper: derive the key, remove it,
then invoke `func` and return its result unmodified. -/
def with_cache_remove_computed {K V A E : Type} [DecidableEq K] (key_func : A → Except E K)
    (f : Nat → A → Except E V) (inst : Nat) (a : A) (s : Caches K V) :
    Except E V × Caches K V × Nat × Nat :=
  match key_func a with
  | Except.error e => (Except.error e, s, 0, 1)
  | Except.ok key =>
    let s1 := raw_remove s inst key
    (f inst a, s1, 1, 1)

/-- `replace_static(key)`'s inner wrapper: invoke `func`, store its result
under the static key unconditionally, and return it. -/
def with_cache_replace_static {K V A E : Type} [DecidableEq K] (key : K)
    (f : Nat → A → Except E V) (inst : Nat) (a : A) (s : Caches K V) :
    Except E V × Caches K V × Nat :=
  match f inst a with
  | Except.error e => (Except.error e, s, 1)
  | Except.ok v => (Except.ok v, raw_set s inst key v, 1)

/-- `replace_computed(key_func)`'s inner wrapper: derive the key, invoke
`func`, store its result under the derived key unconditionally, return it. -/
def with_cache_replace_computed {K V A E : Type} [DecidableEq K] (key_func : A → Except E K)
    (f : Nat → A → Except E V) (inst : Nat) (a : A) (s : Caches K V) :
    Except E V × Caches K V × Nat × Nat :=
  match key_func a with
  | Except.error e => (Except.error e, s, 0, 1)
  | Except.ok key =>
    match f inst a with
    | Except.error e => (Except.error e, s, 1, 1)
    | Except.ok v => (Except.ok v, raw_set s inst key v, 1, 1)

/-- A sequence of calls to one static-key memoized method on one instance:
the list of results, the final registry, and the total number of `func`
invocations across the calls. -/
def runCalls {K V A E : Type} [DecidableEq K] (key : K) (f : Nat → A → Except E V)
    (inst : Nat) : List A → Caches K V → List (Except E V) × Caches K V × Nat
  | [], s => ([], s, 0)
  | a :: rest, s =>
    let r := with_cache_get key f inst a s
    let q := runCalls key f inst rest r.2.1
    (r.1 :: q.1, q.2.1, r.2.2 + q.2.2)

/- ### Basic lemmas about the registry primitives -/

theorem dictSet_eval {K V : Type} [DecidableEq K] (c : Cache K V) (k q : K) (v : V) :
    dictSet c k v q = if q = k then some v else c q := rfl

theorem dictDel_eval {K V : Type} [DecidableEq K] (c : Cache K V) (k q : K) :
    dictDel c k q = if q = k then none else c q := rfl

theorem cachesSet_eval {K V : Type} (s : Caches K V) (inst i : Nat) (c : Cache K V) :
    cachesSet s inst c i = if i = inst then some c else s i := rfl

/-- The cache handed out by `lazy_init` agrees pointwise with `cacheLookup`
on the pre-state. -/
theorem lazy_init_fst {K V : Type} (s : Caches K V) (inst : Nat) (k : K) :
    (lazy_init s inst).1 k = cacheLookup s inst k := by
  unfold lazy_init cacheLookup
  cases s inst <;> rfl

theorem cacheLookup_cachesSet_self {K V : Type} (s : Caches K V) (inst : Nat)
    (c : Cache K V) (k : K) : cacheLookup (cachesSet s inst c) inst k = c k := by
  unfold cacheLookup cachesSet
  simp

theorem cachesSet_other {K V : Type} (s : Caches K V) (inst i : Nat) (c : Cache K V)
    (h : i ≠ inst) : cachesSet s inst c i = s i := by
  unfold cachesSet
  simp [h]

/-- When the instance already has a registry entry, `lazy_init` returns the
registry unchanged. -/
theorem lazy_init_present {K V : Type} (s : Caches K V) (inst : Nat) (c : Cache K V)
    (h : s inst = some c) : lazy_init s inst = (c, s) := by
  unfold lazy_init
  rw [h]

/-- When the instance has no registry entry, `lazy_init` creates an empty one. -/
theorem lazy_init_absent {K V : Type} (s : Caches K V) (inst : Nat)
    (h : s inst = none) :
    lazy_init s inst = (emptyCache, cachesSet s inst emptyCache) := by
  unfold lazy_init
  rw [h]

/-- `lazy_init` does not change what is cached for the instance. -/
theorem lazy_init_snd_self {K V : Type} (s : Caches K V) (inst : Nat) (k : K) :
    cacheLookup (lazy_init s inst).2 inst k = cacheLookup s inst k := by
  cases hs : s inst with
  | some c => rw [lazy_init_present s inst c hs]
  | none =>
    rw [lazy_init_absent s inst hs]
    unfold cacheLookup cachesSet emptyCache
    simp [hs]

/-- `lazy_init` leaves every other instance's registry entry untouched. -/
theorem lazy_init_snd_other {K V : Type} (s : Caches K V) (inst i : Nat) (h : i ≠ inst) :
    (lazy_init s inst).2 i = s i := by
  cases hs : s inst with
  | some c => rw [lazy_init_present s inst c hs]
  | none =>
    rw [lazy_init_absent s inst hs]
    exact cachesSet_other s inst i emptyCache h

theorem cacheLookup_some_state {K V : Type} (s : Caches K V) (inst : Nat) (key : K) (v : V)
    (h : cacheLookup s inst key = some v) : ∃ c, s inst = some c ∧ c key = some v := by
  unfold cacheLookup at h
  cases hs : s inst with
  | none => rw [hs] at h; cases h
  | some c => rw [hs] at h; exact ⟨c, rfl, h⟩

/- ### Behavior lemmas for the wrappers -/

/-- Cache hit: the stored value is returned, the registry is unchanged, and
the wrapped computation is not invoked. -/
theorem with_cache_get_hit {K V A E : Type} [DecidableEq K] (key : K)
    (f : Nat → A → Except E V) (inst : Nat) (a : A) (s : Caches K V) (v : V)
    (h : cacheLookup s inst key = some v) :
    with_cache_get key f inst a s = (Except.ok v, s, 0) := by
  obtain ⟨c, hc, hk⟩ := cacheLookup_some_state s inst key v h
  unfold with_cache_get
  rw [lazy_init_present s inst c hc]
  simp [hk]

/-- Cache miss with a successful computation: `func`'s result is returned,
stored under the key, and `func` runs once. -/
theorem with_cache_get_miss_ok {K V A E : Type} [DecidableEq K] (key : K)
    (f : Nat → A → Except E V) (inst : Nat) (a : A) (s : Caches K V) (v : V)
    (h : cacheLookup s inst key = none) (hf : f inst a = Except.ok v) :
    (with_cache_get key f inst a s).1 = Except.ok v ∧
    (with_cache_get key f inst a s).2.2 = 1 ∧
    (∀ k, cacheLookup (with_cache_get key f inst a s).2.1 inst k
        = if k = key then some v else cacheLookup s inst k) ∧
    (∀ i, i ≠ inst → (with_cache_get key f inst a s).2.1 i = s i) := by
  have hmiss : (lazy_init s inst).1 key = none := by rw [lazy_init_fst]; exact h
  simp only [with_cache_get]
  rw [hmiss, hf]
  dsimp only
  refine ⟨rfl, rfl, ?_, ?_⟩
  · intro k
    rw [cacheLookup_cachesSet_self, dictSet_eval]
    by_cases hk : k = key
    · simp [hk]
    · simp [hk, lazy_init_fst]
  · intro i hi
    rw [cachesSet_other _ _ _ _ hi, lazy_init_snd_other _ _ _ hi]

/-- Cache miss with a raising computation: the error propagates, `func` ran
once, and no key's cached value changes. -/
theorem with_cache_get_miss_error {K V A E : Type} [DecidableEq K] (key : K)
    (f : Nat → A → Except E V) (inst : Nat) (a : A) (s : Caches K V) (e : E)
    (h : cacheLookup s inst key = none) (hf : f inst a = Except.error e) :
    (with_cache_get key f inst a s).1 = Except.error e ∧
    (with_cache_get key f inst a s).2.2 = 1 ∧
    (∀ i k, cacheLookup (with_cache_get key f inst a s).2.1 i k = cacheLookup s i k) := by
  have hmiss : (lazy_init s inst).1 key = none := by rw [lazy_init_fst]; exact h
  simp only [with_cache_get]
  rw [hmiss, hf]
  dsimp only
  refine ⟨rfl, rfl, ?_⟩
  intro i k
  by_cases hi : i = inst
  · subst hi; exact lazy_init_snd_self s i k
  · unfold cacheLookup
    rw [lazy_init_snd_other _ _ _ hi]

/-- What `raw_set` leaves cached for the written instance. -/
theorem raw_set_lookup {K V : Type} [DecidableEq K] (s : Caches K V) (inst : Nat)
    (key k : K) (v : V) :
    cacheLookup (raw_set s inst key v) inst k
      = if k = key then some v else cacheLookup s inst k := by
  simp only [raw_set]
  rw [cacheLookup_cachesSet_self, dictSet_eval]
  by_cases hk : k = key
  · simp [hk]
  · simp [hk, lazy_init_fst]

/-- `raw_set` leaves every other instance's registry entry untouched. -/
theorem raw_set_other {K V : Type} [DecidableEq K] (s : Caches K V) (inst i : Nat)
    (key : K) (v : V) (h : i ≠ inst) : raw_set s inst key v i = s i := by
  simp only [raw_set]
  rw [cachesSet_other _ _ _ _ h, lazy_init_snd_other _ _ _ h]

/-- What `raw_remove` leaves cached for the written instance. -/
theorem raw_remove_lookup {K V : Type} [DecidableEq K] (s : Caches K V) (inst : Nat)
    (key k : K) :
    cacheLookup (raw_remove s inst key) inst k
      = if k = key then none else cacheLookup s inst k := by
  simp only [raw_remove]
  rw [cacheLookup_cachesSet_self, dictDel_eval]
  by_cases hk : k = key
  · simp [hk]
  · simp [hk, lazy_init_fst]

/-- `raw_remove` leaves every other instance's registry entry untouched. -/
theorem raw_remove_other {K V : Type} [DecidableEq K] (s : Caches K V) (inst i : Nat)
    (key : K) (h : i ≠ inst) : raw_remove s inst key i = s i := by
  simp only [raw_remove]
  rw [cachesSet_other _ _ _ _ h, lazy_init_snd_other _ _ _ h]

/-- `raw_get` on a present key returns the stored value and the unchanged
registry. -/
theorem raw_get_hit {K V : Type} (s : Caches K V) (inst : Nat) (key : K) (v : V)
    (h : cacheLookup s inst key = some v) : raw_get s inst key = (Except.ok v, s) := by
  obtain ⟨c, hc, hk⟩ := cacheLookup_some_state s inst key v h
  simp only [raw_get]
  rw [lazy_init_present s inst c hc]
  simp [hk]

/-- `raw_get` on an absent key raises `KeyNotFound`; cached values are
untouched. -/
theorem raw_get_miss {K V : Type} (s : Caches K V) (inst : Nat) (key : K)
    (h : cacheLookup s inst key = none) :
    (raw_get s inst key).1 = Except.error KeyNotFound.keyNotFound ∧
    (∀ i k, cacheLookup (raw_get s inst key).2 i k = cacheLookup s i k) := by
  have hmiss : (lazy_init s inst).1 key = none := by rw [lazy_init_fst]; exact h
  simp only [raw_get]
  rw [hmiss]
  refine ⟨rfl, ?_⟩
  intro i k
  dsimp only
  by_cases hi : i = inst
  · subst hi; exact lazy_init_snd_self s i k
  · unfold cacheLookup
    rw [lazy_init_snd_other _ _ _ hi]

/-- When `key_func` returns a key, the computed wrapper behaves exactly as
the static wrapper at that key (and evaluates `key_func` once). -/
theorem with_cache_computed_ok_key {K V A E : Type} [DecidableEq K]
    (key_func : A → Except E K) (f : Nat → A → Except E V) (inst : Nat) (a : A)
    (s : Caches K V) (k : K) (hk : key_func a = Except.ok k) :
    with_cache_computed key_func f inst a s
      = ((with_cache_get k f inst a s).1, (with_cache_get k f inst a s).2.1,
         (with_cache_get k f inst a s).2.2, 1) := by
  simp only [with_cache_computed, with_cache_get, hk]
  cases hm : (lazy_init s inst).1 k with
  | some v => simp [hm]
  | none => cases hf : f inst a <;> simp [hm, hf]

/-- When `key_func` raises, the computed wrapper propagates the error,
touches nothing, and never invokes the wrapped computation. -/
theorem with_cache_computed_error_key {K V A E : Type} [DecidableEq K]
    (key_func : A → Except E K) (f : Nat → A → Except E V) (inst : Nat) (a : A)
    (s : Caches K V) (e : E) (hk : key_func a = Except.error e) :
    with_cache_computed key_func f inst a s = (Except.error e, s, 0, 1) := by
  simp only [with_cache_computed, hk]

/- ### Claim theorems -/

/-- C1: a call to the static-key memoized method returns the stored value
without invoking `f` when the key is present in the instance's cache (the
registry is unchanged); when the key is absent it invokes `f` with the
original arguments, stores the result under the key in that instance's
cache, and returns that result. -/
theorem static_memoize_behavior {K V A E : Type} [DecidableEq K] (key : K)
    (f : Nat → A → Except E V) (inst : Nat) (a : A) (s : Caches K V) :
    (∀ v, cacheLookup s inst key = some v →
        with_cache_get key f inst a s = (Except.ok v, s, 0)) ∧
    (∀ v, cacheLookup s inst key = none → f inst a = Except.ok v →
        (with_cache_get key f inst a s).1 = Except.ok v ∧
        (with_cache_get key f inst a s).2.2 = 1 ∧
        cacheLookup (with_cache_get key f inst a s).2.1 inst key = some v) := by
  constructor
  · intro v h
    exact with_cache_get_hit key f inst a s v h
  · intro v h hf
    obtain ⟨h1, h2, h3, _⟩ := with_cache_get_miss_ok key f inst a s v h hf
    refine ⟨h1, h2, ?_⟩
    rw [h3 key]
    simp

/-- Witness for C1 at concrete inputs. -/
theorem static_memoize_behavior_witness :
    with_cache_get 1 (liftTotal Nat fun i x => i + x) 0 5 (raw_set emptyCaches 0 1 7)
        = (Except.ok 7, raw_set emptyCaches 0 1 7, 0) ∧
    (with_cache_get 1 (liftTotal Nat fun i x => i + x) 0 5 emptyCaches).1 = Except.ok 5 ∧
    (with_cache_get 1 (liftTotal Nat fun i x => i + x) 0 5 emptyCaches).2.2 = 1 ∧
    cacheLookup (with_cache_get 1 (liftTotal Nat fun i x => i + x) 0 5 emptyCaches).2.1 0 1
        = some 5 :=
  ⟨(static_memoize_behavior 1 (liftTotal Nat fun i x => i + x) 0 5
      (raw_set emptyCaches 0 1 7)).1 7 rfl,
   (static_memoize_behavior 1 (liftTotal Nat fun i x => i + x) 0 5 emptyCaches).2 5 rfl rfl⟩

/-- Every call of a sequence that starts on a cached key is a hit: the
stored value is returned each time, the registry never changes, and the
wrapped computation never runs. -/
theorem runCalls_hit {K V A E : Type} [DecidableEq K] (key : K) (f : Nat → A → Except E V)
    (inst : Nat) (v : V) (l : List A) :
    ∀ s : Caches K V, cacheLookup s inst key = some v →
      runCalls key f inst l s = (List.replicate l.length (Except.ok v), s, 0) := by
  induction l with
  | nil => intro s _; rfl
  | cons a rest ih =>
    intro s h
    simp only [runCalls]
    rw [with_cache_get_hit key f inst a s v h]
    dsimp only
    rw [ih s h]
    simp [List.replicate]

/-- C2: for a static-key memoized method over a computation `g` that never
raises, starting from a state where the key is uncached, a sequence of N ≥ 1
calls with arbitrary argument combinations returns the first call's result
every time and runs the underlying computation exactly once. -/
theorem static_memoize_idempotent {K V A E : Type} [DecidableEq K] (key : K)
    (g : Nat → A → V) (inst : Nat) (a : A) (rest : List A) (s : Caches K V)
    (h : cacheLookup s inst key = none) :
    (runCalls key (liftTotal E g) inst (a :: rest) s).1
        = List.replicate (rest.length + 1) (Except.ok (g inst a)) ∧
    (runCalls key (liftTotal E g) inst (a :: rest) s).2.2 = 1 := by
  have hf : liftTotal E g inst a = Except.ok (g inst a) := rfl
  obtain ⟨h1, h2, h3, _⟩ := with_cache_get_miss_ok key (liftTotal E g) inst a s (g inst a) h hf
  have hs1 : cacheLookup (with_cache_get key (liftTotal E g) inst a s).2.1 inst key
      = some (g inst a) := by
    rw [h3 key]; simp
  simp only [runCalls]
  rw [runCalls_hit key (liftTotal E g) inst (g inst a) rest _ hs1]
  constructor
  · dsimp only
    rw [h1]
    simp [List.replicate]
  · dsimp only
    rw [h2]

/-- Witness for C2 at concrete inputs: three calls, one computation. -/
theorem static_memoize_idempotent_witness :
    (runCalls 1 (liftTotal Nat fun i x => i + x) 0 [5, 6, 7] emptyCaches).1
        = List.replicate 3 (Except.ok 5) ∧
    (runCalls 1 (liftTotal Nat fun i x => i + x) 0 [5, 6, 7] emptyCaches).2.2 = 1 :=
  static_memoize_idempotent 1 (fun i x => i + x) 0 5 [6, 7] emptyCaches rfl

/-- C3: each call of the computed-key wrapper derives its key from the
call's arguments (instance excluded) and then behaves exactly as the
static-key lookup under that key; calls whose derived keys differ trigger
two independent computations, while a repeated argument set triggers
exactly one. -/
theorem computed_memoize_behavior {K V A E : Type} [DecidableEq K]
    (key_func : A → Except E K) (g : Nat → A → V) (inst : Nat) (a b : A)
    (s : Caches K V) (ka kb : K)
    (ha : key_func a = Except.ok ka) (hb : key_func b = Except.ok kb)
    (hca : cacheLookup s inst ka = none) (hcb : cacheLookup s inst kb = none) :
    (∀ (f : Nat → A → Except E V) (x : A) (k : K), key_func x = Except.ok k →
        with_cache_computed key_func f inst x s
          = ((with_cache_get k f inst x s).1, (with_cache_get k f inst x s).2.1,
             (with_cache_get k f inst x s).2.2, 1)) ∧
    (ka ≠ kb →
        (with_cache_computed key_func (liftTotal E g) inst a s).1 = Except.ok (g inst a) ∧
        (with_cache_computed key_func (liftTotal E g) inst a s).2.2.1 = 1 ∧
        (with_cache_computed key_func (liftTotal E g) inst b
            (with_cache_computed key_func (liftTotal E g) inst a s).2.1).1
          = Except.ok (g inst b) ∧
        (with_cache_computed key_func (liftTotal E g) inst b
            (with_cache_computed key_func (liftTotal E g) inst a s).2.1).2.2.1 = 1) ∧
    ((with_cache_computed key_func (liftTotal E g) inst a s).2.2.1 = 1 ∧
     (with_cache_computed key_func (liftTotal E g) inst a
        (with_cache_computed key_func (liftTotal E g) inst a s).2.1).1
        = Except.ok (g inst a) ∧
     (with_cache_computed key_func (liftTotal E g) inst a
        (with_cache_computed key_func (liftTotal E g) inst a s).2.1).2.2.1 = 0) := by
  obtain ⟨h1, h2, h3, _⟩ := with_cache_get_miss_ok ka (liftTotal E g) inst a s (g inst a) hca rfl
  have e1 := with_cache_computed_ok_key key_func (liftTotal E g) inst a s ka ha
  have hstate : (with_cache_computed key_func (liftTotal E g) inst a s).2.1
      = (with_cache_get ka (liftTotal E g) inst a s).2.1 := by rw [e1]
  refine ⟨?_, ?_, ?_⟩
  · intro f x k hk
    exact with_cache_computed_ok_key key_func f inst x s k hk
  · intro hne
    have hkb2 : cacheLookup (with_cache_computed key_func (liftTotal E g) inst a s).2.1 inst kb
        = none := by
      rw [hstate, h3 kb, if_neg (fun hkk => hne hkk.symm)]
      exact hcb
    obtain ⟨g1, g2, _, _⟩ := with_cache_get_miss_ok kb (liftTotal E g) inst b
        (with_cache_computed key_func (liftTotal E g) inst a s).2.1 (g inst b) hkb2 rfl
    have e2 := with_cache_computed_ok_key key_func (liftTotal E g) inst b
        (with_cache_computed key_func (liftTotal E g) inst a s).2.1 kb hb
    exact ⟨by rw [e1]; exact h1, by rw [e1]; exact h2, by rw [e2]; exact g1,
           by rw [e2]; exact g2⟩
  · have hka2 : cacheLookup (with_cache_computed key_func (liftTotal E g) inst a s).2.1 inst ka
        = some (g inst a) := by
      rw [hstate, h3 ka]
      simp
    have hhit := with_cache_get_hit ka (liftTotal E g) inst a
        (with_cache_computed key_func (liftTotal E g) inst a s).2.1 (g inst a) hka2
    have e2 := with_cache_computed_ok_key key_func (liftTotal E g) inst a
        (with_cache_computed key_func (liftTotal E g) inst a s).2.1 ka ha
    exact ⟨by rw [e1]; exact h2, by rw [e2, hhit], by rw [e2, hhit]⟩

/-- Witness for C3 at concrete inputs: derived keys 1 and 0 compute
independently; a repeated argument set hits the cache. -/
theorem computed_memoize_behavior_witness :
    (with_cache_computed (fun x : Nat => (Except.ok (x % 2) : Except Nat Nat))
        (liftTotal Nat fun i x => 10 * i + x) 0 1 emptyCaches).1 = Except.ok 1 ∧
    (with_cache_computed (fun x : Nat => (Except.ok (x % 2) : Except Nat Nat))
        (liftTotal Nat fun i x => 10 * i + x) 0 1 emptyCaches).2.2.1 = 1 ∧
    (with_cache_computed (fun x : Nat => (Except.ok (x % 2) : Except Nat Nat))
        (liftTotal Nat fun i x => 10 * i + x) 0 2
        (with_cache_computed (fun x : Nat => (Except.ok (x % 2) : Except Nat Nat))
          (liftTotal Nat fun i x => 10 * i + x) 0 1 emptyCaches).2.1).1 = Except.ok 2 ∧
    (with_cache_computed (fun x : Nat => (Except.ok (x % 2) : Except Nat Nat))
        (liftTotal Nat fun i x => 10 * i + x) 0 2
        (with_cache_computed (fun x : Nat => (Except.ok (x % 2) : Except Nat Nat))
          (liftTotal Nat fun i x => 10 * i + x) 0 1 emptyCaches).2.1).2.2.1 = 1 ∧
    (with_cache_computed (fun x : Nat => (Except.ok (x % 2) : Except Nat Nat))
        (liftTotal Nat fun i x => 10 * i + x) 0 1
        (with_cache_computed (fun x : Nat => (Except.ok (x % 2) : Except Nat Nat))
          (liftTotal Nat fun i x => 10 * i + x) 0 1 emptyCaches).2.1).1 = Except.ok 1 ∧
    (with_cache_computed (fun x : Nat => (Except.ok (x % 2) : Except Nat Nat))
        (liftTotal Nat fun i x => 10 * i + x) 0 1
        (with_cache_computed (fun x : Nat => (Except.ok (x % 2) : Except Nat Nat))
          (liftTotal Nat fun i x => 10 * i + x) 0 1 emptyCaches).2.1).2.2.1 = 0 := by
  have h := computed_memoize_behavior (fun x : Nat => (Except.ok (x % 2) : Except Nat Nat))
      (fun i x => 10 * i + x) 0 1 2 emptyCaches 1 0 rfl rfl rfl rfl
  have hd := h.2.1 (by decide)
  exact ⟨hd.1, hd.2.1, hd.2.2.1, hd.2.2.2, h.2.2.2.1, h.2.2.2.2⟩

/-- C4: an invalidating wrapper (static or computed variant) first removes
the key — silently when absent — then invokes `f` with the original
arguments and returns its result unmodified; a subsequent memoized lookup
with the same key recomputes instead of returning the old cached value. -/
theorem invalidate_behavior {K V A E : Type} [DecidableEq K] (key : K)
    (key_func : A → Except E K) (f : Nat → A → Except E V) (g : Nat → A → V)
    (inst : Nat) (a b : A) (s : Caches K V) :
    ((with_cache_remove_static key f inst a s).1 = f inst a ∧
     (with_cache_remove_static key f inst a s).2.2 = 1 ∧
     (∀ k, cacheLookup (with_cache_remove_static key f inst a s).2.1 inst k
        = if k = key then none else cacheLookup s inst k) ∧
     (∀ i, i ≠ inst → (with_cache_remove_static key f inst a s).2.1 i = s i)) ∧
    (∀ k, key_func a = Except.ok k →
        (with_cache_remove_computed key_func f inst a s).1 = f inst a ∧
        (with_cache_remove_computed key_func f inst a s).2.2.1 = 1 ∧
        (∀ q, cacheLookup (with_cache_remove_computed key_func f inst a s).2.1 inst q
            = if q = k then none else cacheLookup s inst q) ∧
        (∀ i, i ≠ inst → (with_cache_remove_computed key_func f inst a s).2.1 i = s i)) ∧
    ((with_cache_get key (liftTotal E g) inst b
        (with_cache_remove_static key f inst a s).2.1).1 = Except.ok (g inst b) ∧
     (with_cache_get key (liftTotal E g) inst b
        (with_cache_remove_static key f inst a s).2.1).2.2 = 1) := by
  refine ⟨⟨rfl, rfl, ?_, ?_⟩, ?_, ?_⟩
  · intro k
    exact raw_remove_lookup s inst key k
  · intro i hi
    exact raw_remove_other s inst i key hi
  · intro k hk
    have e : with_cache_remove_computed key_func f inst a s
        = (f inst a, raw_remove s inst k, 1, 1) := by
      simp only [with_cache_remove_computed, hk]
    refine ⟨by rw [e], by rw [e], ?_, ?_⟩
    · intro q
      rw [e]
      exact raw_remove_lookup s inst k q
    · intro i hi
      rw [e]
      exact raw_remove_other s inst i k hi
  · have hnone : cacheLookup (with_cache_remove_static key f inst a s).2.1 inst key = none := by
      have := raw_remove_lookup s inst key key
      simpa using this
    obtain ⟨h1, h2, _, _⟩ := with_cache_get_miss_ok key (liftTotal E g) inst b
        (with_cache_remove_static key f inst a s).2.1 (g inst b) hnone rfl
    exact ⟨h1, h2⟩

/-- Witness for C4 at concrete inputs: removal of a cached key, a silent
removal through the computed variant, and a recomputation afterwards. -/
theorem invalidate_behavior_witness :
    (with_cache_remove_static 1 (liftTotal Nat fun _ _ => 100) 0 3
        (raw_set emptyCaches 0 1 7)).1 = Except.ok 100 ∧
    cacheLookup (with_cache_remove_static 1 (liftTotal Nat fun _ _ => 100) 0 3
        (raw_set emptyCaches 0 1 7)).2.1 0 1 = none ∧
    (with_cache_remove_computed (fun x : Nat => (Except.ok (x % 2) : Except Nat Nat))
        (liftTotal Nat fun _ _ => 100) 0 3 (raw_set emptyCaches 0 1 7)).2.2.1 = 1 ∧
    (with_cache_get 1 (liftTotal Nat fun _ _ => 42) 0 9
        (with_cache_remove_static 1 (liftTotal Nat fun _ _ => 100) 0 3
          (raw_set emptyCaches 0 1 7)).2.1).1 = Except.ok 42 ∧
    (with_cache_get 1 (liftTotal Nat fun _ _ => 42) 0 9
        (with_cache_remove_static 1 (liftTotal Nat fun _ _ => 100) 0 3
          (raw_set emptyCaches 0 1 7)).2.1).2.2 = 1 := by
  have h := invalidate_behavior 1 (fun x : Nat => (Except.ok (x % 2) : Except Nat Nat))
      (liftTotal Nat fun _ _ => 100) (fun _ _ => 42) 0 3 9 (raw_set emptyCaches 0 1 7)
  refine ⟨h.1.1, ?_, (h.2.1 1 rfl).2.1, h.2.2.1, h.2.2.2⟩
  have hl := h.1.2.2.1 1
  simpa using hl

/-- C5: a replacing wrapper (static or computed variant) invokes `f`,
unconditionally overwrites or creates the cache entry for the key with the
result, and returns the result — never a previously cached value. -/
theorem replace_behavior {K V A E : Type} [DecidableEq K] (key : K)
    (key_func : A → Except E K) (f : Nat → A → Except E V)
    (inst : Nat) (a : A) (s : Caches K V) :
    (∀ v, f inst a = Except.ok v →
        (with_cache_replace_static key f inst a s).1 = Except.ok v ∧
        (with_cache_replace_static key f inst a s).2.2 = 1 ∧
        cacheLookup (with_cache_replace_static key f inst a s).2.1 inst key = some v ∧
        (∀ k, k ≠ key →
            cacheLookup (with_cache_replace_static key f inst a s).2.1 inst k
              = cacheLookup s inst k) ∧
        (∀ i, i ≠ inst → (with_cache_replace_static key f inst a s).2.1 i = s i)) ∧
    (∀ k v, key_func a = Except.ok k → f inst a = Except.ok v →
        (with_cache_replace_computed key_func f inst a s).1 = Except.ok v ∧
        (with_cache_replace_computed key_func f inst a s).2.2.1 = 1 ∧
        cacheLookup (with_cache_replace_computed key_func f inst a s).2.1 inst k = some v ∧
        (∀ q, q ≠ k →
            cacheLookup (with_cache_replace_computed key_func f inst a s).2.1 inst q
              = cacheLookup s inst q) ∧
        (∀ i, i ≠ inst → (with_cache_replace_computed key_func f inst a s).2.1 i = s i)) := by
  constructor
  · intro v hf
    have e : with_cache_replace_static key f inst a s
        = (Except.ok v, raw_set s inst key v, 1) := by
      simp only [with_cache_replace_static, hf]
    refine ⟨by rw [e], by rw [e], ?_, ?_, ?_⟩
    · rw [e]
      have := raw_set_lookup s inst key key v
      simpa using this
    · intro k hk
      rw [e]
      have := raw_set_lookup s inst key k v
      rwa [if_neg hk] at this
    · intro i hi
      rw [e]
      exact raw_set_other s inst i key v hi
  · intro k v hk hf
    have e : with_cache_replace_computed key_func f inst a s
        = (Except.ok v, raw_set s inst k v, 1, 1) := by
      simp only [with_cache_replace_computed, hk, hf]
    refine ⟨by rw [e], by rw [e], ?_, ?_, ?_⟩
    · rw [e]
      have := raw_set_lookup s inst k k v
      simpa using this
    · intro q hq
      rw [e]
      have := raw_set_lookup s inst k q v
      rwa [if_neg hq] at this
    · intro i hi
      rw [e]
      exact raw_set_other s inst i k v hi

/-- Witness for C5 at concrete inputs: an older cached value 7 is
overwritten by the computation's result 42 and never returned. -/
theorem replace_behavior_witness :
    (with_cache_replace_static 1 (liftTotal Nat fun _ _ => 42) 0 3
        (raw_set emptyCaches 0 1 7)).1 = Except.ok 42 ∧
    cacheLookup (with_cache_replace_static 1 (liftTotal Nat fun _ _ => 42) 0 3
        (raw_set emptyCaches 0 1 7)).2.1 0 1 = some 42 ∧
    (with_cache_replace_computed (fun x : Nat => (Except.ok (x % 2) : Except Nat Nat))
        (liftTotal Nat fun _ _ => 42) 0 3 (raw_set emptyCaches 0 1 7)).1 = Except.ok 42 ∧
    cacheLookup (with_cache_replace_computed (fun x : Nat => (Except.ok (x % 2) : Except Nat Nat))
        (liftTotal Nat fun _ _ => 42) 0 3 (raw_set emptyCaches 0 1 7)).2.1 0 1 = some 42 := by
  have h := replace_behavior 1 (fun x : Nat => (Except.ok (x % 2) : Except Nat Nat))
      (liftTotal Nat fun _ _ => 42) 0 3 (raw_set emptyCaches 0 1 7)
  exact ⟨(h.1 42 rfl).1, (h.1 42 rfl).2.2.1, (h.2 1 42 rfl rfl).1, (h.2 1 42 rfl rfl).2.2.1⟩

/-- C6: `raw_get` fails with `KeyNotFound` exactly when the key is absent
(returning the stored value otherwise), the decorator-driven lookup paths
never produce `KeyNotFound` (they compute and populate on miss), and
`raw_remove` on a key never set returns normally with every cached value
unchanged. -/
theorem raw_access_behavior {K V A E : Type} [DecidableEq K] (key : K)
    (g : Nat → A → V) (kf : A → K) (inst : Nat) (a : A) (s : Caches K V) :
    (∀ v, cacheLookup s inst key = some v → raw_get s inst key = (Except.ok v, s)) ∧
    (cacheLookup s inst key = none →
        (raw_get s inst key).1 = Except.error KeyNotFound.keyNotFound ∧
        (∀ i k, cacheLookup (raw_get s inst key).2 i k = cacheLookup s i k)) ∧
    (∃ v, (with_cache_get key (liftTotal E g) inst a s).1 = Except.ok v) ∧
    (∃ v, (with_cache_computed (fun x => Except.ok (kf x)) (liftTotal E g) inst a s).1
        = Except.ok v) ∧
    (cacheLookup s inst key = none →
        ∀ i k, cacheLookup (raw_remove s inst key) i k = cacheLookup s i k) := by
  refine ⟨?_, ?_, ?_, ?_, ?_⟩
  · intro v h
    exact raw_get_hit s inst key v h
  · intro h
    exact raw_get_miss s inst key h
  · cases hl : cacheLookup s inst key with
    | some v =>
      exact ⟨v, by rw [with_cache_get_hit key (liftTotal E g) inst a s v hl]⟩
    | none =>
      exact ⟨g inst a, (with_cache_get_miss_ok key (liftTotal E g) inst a s (g inst a) hl rfl).1⟩
  · have e := with_cache_computed_ok_key (fun x => Except.ok (kf x)) (liftTotal E g)
        inst a s (kf a) rfl
    cases hl : cacheLookup s inst (kf a) with
    | some v =>
      refine ⟨v, ?_⟩
      rw [e, with_cache_get_hit (kf a) (liftTotal E g) inst a s v hl]
    | none =>
      refine ⟨g inst a, ?_⟩
      rw [e]
      exact (with_cache_get_miss_ok (kf a) (liftTotal E g) inst a s (g inst a) hl rfl).1
  · intro h i k
    by_cases hi : i = inst
    · subst hi
      rw [raw_remove_lookup]
      by_cases hk : k = key
      · subst hk
        simp [h]
      · rw [if_neg hk]
    · unfold cacheLookup
      rw [raw_remove_other s inst i key hi]

/-- Witness for C6 at concrete inputs (the wrapped error type instantiated
to `KeyNotFound` itself). -/
theorem raw_access_behavior_witness :
    raw_get (raw_set emptyCaches 0 1 7) 0 1 = (Except.ok 7, raw_set emptyCaches 0 1 7) ∧
    (raw_get (emptyCaches (K := Nat) (V := Nat)) 0 1).1
        = Except.error KeyNotFound.keyNotFound ∧
    (∃ v, (with_cache_get 1 (liftTotal KeyNotFound fun _ _ => (5 : Nat)) 0 9
        emptyCaches).1 = Except.ok v) ∧
    (∃ v, (with_cache_computed (fun x : Nat => Except.ok (x % 2))
        (liftTotal KeyNotFound fun _ _ => (5 : Nat)) 0 9 emptyCaches).1 = Except.ok v) ∧
    cacheLookup (raw_remove (emptyCaches (K := Nat) (V := Nat)) 0 1) 0 1
        = cacheLookup (emptyCaches (K := Nat) (V := Nat)) 0 1 := by
  have h := raw_access_behavior 1 (E := KeyNotFound) (fun _ _ => (5 : Nat))
      (fun x : Nat => x % 2) 0 9 (emptyCaches (K := Nat) (V := Nat))
  have hs := raw_access_behavior 1 (E := KeyNotFound) (fun _ _ => (5 : Nat))
      (fun x : Nat => x % 2) 0 9 (raw_set emptyCaches 0 1 7)
  exact ⟨hs.1 7 rfl, (h.2.1 rfl).1, h.2.2.1, h.2.2.2.1, h.2.2.2.2 rfl 0 1⟩

/-- C7: an error raised by the wrapped computation or by the key-derivation
function propagates unmodified through every lookup wrapper, and a failed
computation leaves every cached value unchanged. -/
theorem error_propagation {K V A E : Type} [DecidableEq K] (key : K)
    (key_func : A → Except E K) (f : Nat → A → Except E V) (inst : Nat) (a : A)
    (s : Caches K V) :
    (∀ e, cacheLookup s inst key = none → f inst a = Except.error e →
        (with_cache_get key f inst a s).1 = Except.error e ∧
        (with_cache_get key f inst a s).2.2 = 1 ∧
        (∀ i k, cacheLookup (with_cache_get key f inst a s).2.1 i k = cacheLookup s i k)) ∧
    (∀ e, key_func a = Except.error e →
        with_cache_computed key_func f inst a s = (Except.error e, s, 0, 1)) ∧
    (∀ k e, key_func a = Except.ok k → cacheLookup s inst k = none →
        f inst a = Except.error e →
        (with_cache_computed key_func f inst a s).1 = Except.error e ∧
        (with_cache_computed key_func f inst a s).2.2.1 = 1 ∧
        (∀ i q, cacheLookup (with_cache_computed key_func f inst a s).2.1 i q
            = cacheLookup s i q)) := by
  refine ⟨?_, ?_, ?_⟩
  · intro e h hf
    exact with_cache_get_miss_error key f inst a s e h hf
  · intro e hk
    exact with_cache_computed_error_key key_func f inst a s e hk
  · intro k e hk hl hf
    have eq := with_cache_computed_ok_key key_func f inst a s k hk
    obtain ⟨h1, h2, h3⟩ := with_cache_get_miss_error k f inst a s e hl hf
    exact ⟨by rw [eq]; exact h1, by rw [eq]; exact h2, by rw [eq]; exact h3⟩

/-- Witness for C7 at concrete inputs: a raising computation and a raising
key-derivation function. -/
theorem error_propagation_witness :
    (with_cache_get 1 (fun _ _ => (Except.error 8 : Except Nat Nat)) 0 3 emptyCaches).1
        = Except.error 8 ∧
    (with_cache_get 1 (fun _ _ => (Except.error 8 : Except Nat Nat)) 0 3 emptyCaches).2.2
        = 1 ∧
    cacheLookup (with_cache_get 1 (fun _ _ => (Except.error 8 : Except Nat Nat)) 0 3
        emptyCaches).2.1 0 1 = cacheLookup (emptyCaches (K := Nat) (V := Nat)) 0 1 ∧
    with_cache_computed (fun _ : Nat => (Except.error 9 : Except Nat Nat))
        (fun _ _ => (Except.error 8 : Except Nat Nat)) 0 3 emptyCaches
      = (Except.error 9, emptyCaches, 0, 1) ∧
    (with_cache_computed (fun _ : Nat => (Except.ok 1 : Except Nat Nat))
        (fun _ _ => (Except.error 8 : Except Nat Nat)) 0 3 emptyCaches).1
      = Except.error 8 := by
  have h := error_propagation 1 (fun _ : Nat => (Except.error 9 : Except Nat Nat))
      (fun _ _ => (Except.error 8 : Except Nat Nat)) 0 3 (emptyCaches (K := Nat) (V := Nat))
  have hok := error_propagation 1 (fun _ : Nat => (Except.ok 1 : Except Nat Nat))
      (fun _ _ => (Except.error 8 : Except Nat Nat)) 0 3 (emptyCaches (K := Nat) (V := Nat))
  exact ⟨(h.1 8 rfl rfl).1, (h.1 8 rfl rfl).2.1, (h.1 8 rfl rfl).2.2 0 1,
         h.2.1 9 rfl, (hok.2.2 1 8 rfl rfl rfl).1⟩

/-- C8: a memoized computation returning `None` is cached with
presence-based semantics: the stored `None` is distinguishable from key
absence, and a subsequent call with the same key is a cache hit that
returns `None` without invoking the computation again. -/
theorem none_result_cached {K W A E : Type} [DecidableEq K] (key : K)
    (g : Nat → A → Option W) (inst : Nat) (a b : A) (s : Caches K (Option W))
    (h : cacheLookup s inst key = none) (hg : g inst a = none) :
    (with_cache_get key (liftTotal E g) inst a s).1 = Except.ok none ∧
    cacheLookup (with_cache_get key (liftTotal E g) inst a s).2.1 inst key = some none ∧
    with_cache_get key (liftTotal E g) inst b
        (with_cache_get key (liftTotal E g) inst a s).2.1
      = (Except.ok none, (with_cache_get key (liftTotal E g) inst a s).2.1, 0) := by
  have hf : liftTotal E g inst a = Except.ok (g inst a) := rfl
  obtain ⟨h1, _, h3, _⟩ := with_cache_get_miss_ok key (liftTotal E g) inst a s (g inst a) h hf
  have hl : cacheLookup (with_cache_get key (liftTotal E g) inst a s).2.1 inst key
      = some (g inst a) := by
    rw [h3 key]
    simp
  rw [hg] at h1 hl
  exact ⟨h1, hl, with_cache_get_hit key (liftTotal E g) inst b _ none hl⟩

/-- Witness for C8 at concrete inputs: `None` (modelled `none`) is cached
and then served as a hit. -/
theorem none_result_cached_witness :
    (with_cache_get 1 (liftTotal Nat fun _ _ => (none : Option Nat)) 0 3 emptyCaches).1
        = Except.ok none ∧
    cacheLookup (with_cache_get 1 (liftTotal Nat fun _ _ => (none : Option Nat)) 0 3
        emptyCaches).2.1 0 1 = some none ∧
    with_cache_get 1 (liftTotal Nat fun _ _ => (none : Option Nat)) 0 4
        (with_cache_get 1 (liftTotal Nat fun _ _ => (none : Option Nat)) 0 3 emptyCaches).2.1
      = (Except.ok none,
         (with_cache_get 1 (liftTotal Nat fun _ _ => (none : Option Nat)) 0 3
            emptyCaches).2.1, 0) :=
  none_result_cached 1 (fun _ _ => (none : Option Nat)) 0 3 4 emptyCaches rfl rfl

/-- `with_cache_get` leaves every other instance's registry entry untouched. -/
theorem with_cache_get_other {K V A E : Type} [DecidableEq K] (key : K)
    (f : Nat → A → Except E V) (inst : Nat) (a : A) (s : Caches K V) (i : Nat)
    (hi : i ≠ inst) : (with_cache_get key f inst a s).2.1 i = s i := by
  simp only [with_cache_get]
  cases hm : (lazy_init s inst).1 key with
  | some v => exact lazy_init_snd_other s inst i hi
  | none =>
    cases hf : f inst a with
    | error e => exact lazy_init_snd_other s inst i hi
    | ok v =>
      dsimp only
      rw [cachesSet_other _ _ _ _ hi]
      exact lazy_init_snd_other s inst i hi

/-- The result and invocation count of `with_cache_get` depend only on the
called instance's own registry entry. -/
theorem with_cache_get_congr {K V A E : Type} [DecidableEq K] (key : K)
    (f : Nat → A → Except E V) (inst : Nat) (a : A) (s t : Caches K V)
    (h : s inst = t inst) :
    (with_cache_get key f inst a s).1 = (with_cache_get key f inst a t).1 ∧
    (with_cache_get key f inst a s).2.2 = (with_cache_get key f inst a t).2.2 := by
  have hc : (lazy_init s inst).1 = (lazy_init t inst).1 := by
    unfold lazy_init
    rw [h]
    cases t inst <;> rfl
  simp only [with_cache_get]
  rw [hc]
  cases hm : (lazy_init t inst).1 key with
  | some v => exact ⟨rfl, rfl⟩
  | none => cases hf : f inst a <;> exact ⟨rfl, rfl⟩

/-- C9: cache operations on one instance neither observe nor affect another
instance's registry entry; a per-instance cache is created empty on the
instance's first access, and instances never touched by the mechanism have
no entry. -/
theorem instance_isolation {K V A E : Type} [DecidableEq K] (key : K)
    (f : Nat → A → Except E V) (inst inst2 : Nat) (a : A) (v : V)
    (s t : Caches K V) (hne : inst2 ≠ inst) :
    ((with_cache_get key f inst a s).2.1 inst2 = s inst2 ∧
     raw_set s inst key v inst2 = s inst2 ∧
     raw_remove s inst key inst2 = s inst2 ∧
     (raw_get s inst key).2 inst2 = s inst2 ∧
     (lazy_init s inst).2 inst2 = s inst2) ∧
    (s inst = t inst →
        (with_cache_get key f inst a s).1 = (with_cache_get key f inst a t).1 ∧
        (with_cache_get key f inst a s).2.2 = (with_cache_get key f inst a t).2.2) ∧
    (s inst = none →
        (lazy_init s inst).1 = emptyCache ∧
        (lazy_init s inst).2 inst = some emptyCache) ∧
    emptyCaches inst2 = (none : Option (Cache K V)) := by
  refine ⟨⟨?_, ?_, ?_, ?_, ?_⟩, ?_, ?_, rfl⟩
  · exact with_cache_get_other key f inst a s inst2 hne
  · exact raw_set_other s inst inst2 key v hne
  · exact raw_remove_other s inst inst2 key hne
  · simp only [raw_get]
    cases hm : (lazy_init s inst).1 key with
    | some w => exact lazy_init_snd_other s inst inst2 hne
    | none => exact lazy_init_snd_other s inst inst2 hne
  · exact lazy_init_snd_other s inst inst2 hne
  · intro h
    exact with_cache_get_congr key f inst a s t h
  · intro h
    rw [lazy_init_absent s inst h]
    constructor
    · rfl
    · unfold cachesSet
      simp

/-- Witness for C9 at concrete inputs: instance 0's operations leave
instance 1's entry alone; a state differing only at instance 1 gives the
same call result. -/
theorem instance_isolation_witness :
    (with_cache_get 1 (liftTotal Nat fun _ _ => (5 : Nat)) 0 3 emptyCaches).2.1 1
        = emptyCaches 1 ∧
    raw_set (emptyCaches (K := Nat) (V := Nat)) 0 1 7 1 = emptyCaches 1 ∧
    raw_remove (emptyCaches (K := Nat) (V := Nat)) 0 1 1 = emptyCaches 1 ∧
    (with_cache_get 1 (liftTotal Nat fun _ _ => (5 : Nat)) 0 3 emptyCaches).1
        = (with_cache_get 1 (liftTotal Nat fun _ _ => (5 : Nat)) 0 3
            (raw_set emptyCaches 1 1 9)).1 ∧
    (lazy_init (emptyCaches (K := Nat) (V := Nat)) 0).1 = emptyCache ∧
    (lazy_init (emptyCaches (K := Nat) (V := Nat)) 0).2 0 = some emptyCache ∧
    emptyCaches 1 = (none : Option (Cache Nat Nat)) := by
  have h := instance_isolation 1 (liftTotal Nat fun _ _ => (5 : Nat)) 0 1 3 7
      (emptyCaches (K := Nat) (V := Nat)) (raw_set emptyCaches 1 1 9) (by decide)
  exact ⟨h.1.1, h.1.2.1, h.1.2.2.1, (h.2.1 rfl).1, (h.2.2.1 rfl).1, (h.2.2.1 rfl).2,
         h.2.2.2⟩

/-- C10: every computed-key wrapper evaluates the key-derivation function
exactly once per call — cache hits included — before the wrapped
computation runs and before any cache mutation; when the derivation raises,
the error propagates, the computation is never invoked, and the registry is
untouched. -/
theorem computed_key_once {K V A E : Type} [DecidableEq K] (key_func : A → Except E K)
    (f : Nat → A → Except E V) (inst : Nat) (a : A) (s : Caches K V) :
    ((with_cache_computed key_func f inst a s).2.2.2 = 1 ∧
     (with_cache_remove_computed key_func f inst a s).2.2.2 = 1 ∧
     (with_cache_replace_computed key_func f inst a s).2.2.2 = 1) ∧
    (∀ e, key_func a = Except.error e →
        with_cache_computed key_func f inst a s = (Except.error e, s, 0, 1) ∧
        with_cache_remove_computed key_func f inst a s = (Except.error e, s, 0, 1) ∧
        with_cache_replace_computed key_func f inst a s = (Except.error e, s, 0, 1)) := by
  refine ⟨⟨?_, ?_, ?_⟩, ?_⟩
  · simp only [with_cache_computed]
    cases hk : key_func a with
    | error e => rfl
    | ok k =>
      dsimp only
      cases hm : (lazy_init s inst).1 k with
      | some v => rfl
      | none => cases hf : f inst a <;> rfl
  · simp only [with_cache_remove_computed]
    cases hk : key_func a <;> rfl
  · simp only [with_cache_replace_computed]
    cases hk : key_func a with
    | error e => rfl
    | ok k => cases hf : f inst a <;> rfl
  · intro e hk
    refine ⟨with_cache_computed_error_key key_func f inst a s e hk, ?_, ?_⟩
    · simp only [with_cache_remove_computed, hk]
    · simp only [with_cache_replace_computed, hk]

/-- Witness for C10 at concrete inputs: a raising key-derivation function
makes all three computed wrappers propagate the error with nothing invoked
and nothing stored, while key derivation always runs once. -/
theorem computed_key_once_witness :
    (with_cache_computed (fun x : Nat => (Except.ok (x % 2) : Except Nat Nat))
        (liftTotal Nat fun _ _ => (5 : Nat)) 0 3 emptyCaches).2.2.2 = 1 ∧
    (with_cache_remove_computed (fun x : Nat => (Except.ok (x % 2) : Except Nat Nat))
        (liftTotal Nat fun _ _ => (5 : Nat)) 0 3 emptyCaches).2.2.2 = 1 ∧
    (with_cache_replace_computed (fun x : Nat => (Except.ok (x % 2) : Except Nat Nat))
        (liftTotal Nat fun _ _ => (5 : Nat)) 0 3 emptyCaches).2.2.2 = 1 ∧
    with_cache_computed (fun _ : Nat => (Except.error 9 : Except Nat Nat))
        (liftTotal Nat fun _ _ => (5 : Nat)) 0 3 emptyCaches
      = (Except.error 9, emptyCaches, 0, 1) ∧
    with_cache_remove_computed (fun _ : Nat => (Except.error 9 : Except Nat Nat))
        (liftTotal Nat fun _ _ => (5 : Nat)) 0 3 emptyCaches
      = (Except.error 9, emptyCaches, 0, 1) ∧
    with_cache_replace_computed (fun _ : Nat => (Except.error 9 : Except Nat Nat))
        (liftTotal Nat fun _ _ => (5 : Nat)) 0 3 emptyCaches
      = (Except.error 9, emptyCaches, 0, 1) := by
  have h1 := computed_key_once (fun x : Nat => (Except.ok (x % 2) : Except Nat Nat))
      (liftTotal Nat fun _ _ => (5 : Nat)) 0 3 (emptyCaches (K := Nat) (V := Nat))
  have h2 := computed_key_once (fun _ : Nat => (Except.error 9 : Except Nat Nat))
      (liftTotal Nat fun _ _ => (5 : Nat)) 0 3 (emptyCaches (K := Nat) (V := Nat))
  exact ⟨h1.1.1, h1.1.2.1, h1.1.2.2, (h2.2 9 rfl).1, (h2.2 9 rfl).2.1, (h2.2 9 rfl).2.2⟩

end Sretoolbox
